import Mathlib

/-!
Shallow embedding of the ikiguide backend's session store
(`app/models/session.py`) and generation cache
(`app/services/openai_service.py`).

Python dictionaries are modelled as insertion-ordered association lists
with unique keys in every reachable state; the operations below mirror
Python's `d[k] = v` (replace in place, else append), `d.get(k)`,
`d.update(patch)`, `del d[k]` and key containment.  Timestamps are
naturals; `datetime.now()` becomes an explicit `now` argument, and the
session timeout is measured in the same units (the Python code compares
`now - created_at` against `timedelta(hours=timeout)`; age is truncated
subtraction, matching the fact that a negative timedelta never exceeds a
non-negative timeout).
-/

namespace Ikiguide

section Dict

variable {κ : Type} {α : Type} [DecidableEq κ]

/-- Key containment, Python `k in d`. -/
def dHas : List (κ × α) → κ → Bool
  | [], _ => false
  | kv :: rest, k => kv.1 = k || dHas rest k

/-- Lookup, Python `d.get(k)` (first matching entry). -/
def dget? : List (κ × α) → κ → Option α
  | [], _ => none
  | kv :: rest, k => if kv.1 = k then some kv.2 else dget? rest k

/-- Lookup with default, Python `d.get(k, dflt)`. -/
def dgetD (d : List (κ × α)) (k : κ) (dflt : α) : α :=
  (dget? d k).getD dflt

/-- Assignment, Python `d[k] = v`: replace the first entry with key `k`
in place, else append at the end. -/
def dset : List (κ × α) → κ → α → List (κ × α)
  | [], k, v => [(k, v)]
  | kv :: rest, k, v => if kv.1 = k then (k, v) :: rest else kv :: dset rest k v

/-- Deletion, Python `del d[k]` (removes every entry with key `k`;
identical on the unique-keyed dictionaries the code builds). -/
def dErase : List (κ × α) → κ → List (κ × α)
  | [], _ => []
  | kv :: rest, k => if kv.1 = k then dErase rest k else kv :: dErase rest k

/-- Shallow merge, Python `d.update(patch)`. -/
def dUpdate (d patch : List (κ × α)) : List (κ × α) :=
  patch.foldl (fun acc kv => dset acc kv.1 kv.2) d

end Dict

/-- Values stored in a session's `user_data` dictionary. -/
inductive Val where
  | str (s : String)
  | strList (l : List String)
  deriving DecidableEq, Repr

/-- Python truthiness of a `user_data` value. -/
def Val.truthy : Val → Bool
  | .str s => s ≠ ""
  | .strList l => l ≠ []

/-- Truthiness of an optional value, Python `if d.get(k):`. -/
def truthy? : Option Val → Bool
  | none => false
  | some v => v.truthy

/-- Keys of the `responses` dictionary passed to the generation
protocol: Python allows both `int` and `str` keys there. -/
inductive RKey where
  | intKey (n : Int)
  | strKey (s : String)
  deriving DecidableEq, Repr

abbrev UserData := List (String × Val)
abbrev Responses := List (RKey × String)

/-- One session's data, the dictionary built by
`SessionManager.create_session`. -/
structure SessionRecord where
  created_at : Nat
  user_data : UserData
  last_activity : Nat
  user_responses : Responses
  deriving DecidableEq, Repr

/-- The session mapping `SessionManager._sessions`. -/
abbrev Store := List (String × SessionRecord)

/-- The `SessionManager` configuration (`max_sessions`,
`session_timeout`). -/
structure Config where
  max_sessions : Nat
  session_timeout : Nat
  deriving DecidableEq, Repr

/-- First phase of `_cleanup_expired_sessions`: drop every record whose
age `now - created_at` strictly exceeds the timeout. -/
def removeExpired (cfg : Config) (now : Nat) : Store → Store
  | [] => []
  | kr :: rest =>
    if cfg.session_timeout < now - kr.2.created_at then removeExpired cfg now rest
    else kr :: removeExpired cfg now rest

/-- Python `min(self._sessions, key=lambda k: self._sessions[k]['created_at'])`:
the first entry attaining the minimal `created_at` (iteration order =
insertion order, `min` keeps the earliest of ties). -/
def oldestEntry : Store → Option (String × SessionRecord)
  | [] => none
  | kr :: rest =>
    match oldestEntry rest with
    | none => some kr
    | some kr' => if kr.2.created_at ≤ kr'.2.created_at then some kr else some kr'

/-- Second phase of `_cleanup_expired_sessions`: while the store holds
strictly more than `max_sessions` records, delete the oldest-created one
(the Python code pops from a stable `sorted`-by-`created_at` list, which
removes the same entries in the same order).  Fuel-based recursion; the
fuel is instantiated with the store's length, which suffices since every
round removes an entry. -/
def trimAux (cfg : Config) : Nat → Store → Store
  | 0, st => st
  | fuel + 1, st =>
    if cfg.max_sessions < st.length then
      match oldestEntry st with
      | none => st
      | some kr => trimAux cfg fuel (dErase st kr.1)
    else st

/-- `_cleanup_expired_sessions`: TTL sweep, then capacity trim. -/
def cleanupExpired (cfg : Config) (now : Nat) (st : Store) : Store :=
  trimAux cfg (removeExpired cfg now st).length (removeExpired cfg now st)

/-- `SessionManager.create_session`.  `newId` stands for the fresh
`uuid.uuid4()` string.  The error case is Python's `min()` raising on an
empty mapping (only reachable when `max_sessions = 0`), which the
`except` clause converts into a `SessionError`; the cleanup mutations
performed before the failure survive, hence the store is returned in
both cases. -/
def create_session (cfg : Config) (now : Nat) (newId : String)
    (initial_data : Option UserData) (st : Store) : Store × Except String String :=
  let st1 := cleanupExpired cfg now st
  if cfg.max_sessions ≤ st1.length then
    match oldestEntry st1 with
    | none => (st1, Except.error "Session creation failed")
    | some kr =>
      (dset (dErase st1 kr.1) newId ⟨now, initial_data.getD [], now, []⟩, Except.ok newId)
  else
    (dset st1 newId ⟨now, initial_data.getD [], now, []⟩, Except.ok newId)

/-- The `Session` wrapper object handed back by `get_session`; it
aliases the record stored in the mapping. -/
structure Session where
  session_id : String
  session_data : SessionRecord
  deriving DecidableEq, Repr

/-- `SessionManager.get_session`: on a hit, stamp `last_activity = now`
in the stored record and return the (aliased) record; on a miss return
`none` and leave the store untouched. -/
def get_session (now : Nat) (sid : String) (st : Store) : Store × Option Session :=
  match dget? st sid with
  | some r =>
    (dset st sid { r with last_activity := now }, some ⟨sid, { r with last_activity := now }⟩)
  | none => (st, none)

/-- `SessionManager.update_session`: `get_session` (which already bumps
`last_activity`), then in-place `user_data.update(data)` and a second
`last_activity = now`, returning `True`; `False` when the id is absent. -/
def update_session (now : Nat) (sid : String) (data : UserData) (st : Store) : Store × Bool :=
  match get_session now sid st with
  | (st1, some sess) =>
    (dset st1 sid
      { sess.session_data with
        user_data := dUpdate sess.session_data.user_data data
        last_activity := now }, true)
  | (st1, none) => (st1, false)

/-- `SessionManager.delete_session`. -/
def delete_session (sid : String) (st : Store) : Store × Bool :=
  if dHas st sid then (dErase st sid, true) else (st, false)

/-!
The generation cache, `generate_ikiguide_with_retry` in
`app/services/openai_service.py`.  The OpenAI client and the response
post-processing (prompt formatting, `content.strip().split`) are the
opaque Generator: one protocol invocation consults an oracle
`gen : Except String (List String)` that either yields the processed
ordered path list or the exception message of a failed API call.  The
`tenacity` retry decorator re-executes the body only when it raises;
the body catches every exception of the Generator call itself, so a
raise can only come from validation (`ValueError`) or from session
creation (`SessionError`), both upstream of any Generator call — the
model therefore embeds a single execution of the body.  `clientOk`
models whether the module-level OpenAI client was set up
(`if not client:`).
-/

/-- The four required response keys, in order. -/
def requiredKeys : List String := ["good_at", "love", "world_needs", "paid_for"]

/-- Python `all(isinstance(k, int) for k in responses.keys())`
(vacuously true on an empty mapping). -/
def allIntKeys (rs : Responses) : Bool :=
  rs.all fun kv => match kv.1 with
    | RKey.intKey _ => true
    | RKey.strKey _ => false

/-- The numeric-key rewrite at the top of
`generate_ikiguide_with_retry`: when every key is an `int`, the mapping
is replaced by the four string keys with `responses.get(i, '')`. -/
def transformResponses (rs : Responses) : Responses :=
  if allIntKeys rs then
    [(RKey.strKey "good_at", dgetD rs (RKey.intKey 1) ""),
     (RKey.strKey "love", dgetD rs (RKey.intKey 2) ""),
     (RKey.strKey "world_needs", dgetD rs (RKey.intKey 3) ""),
     (RKey.strKey "paid_for", dgetD rs (RKey.intKey 4) "")]
  else rs

/-- Python `all(key in responses for key in required_keys)`. -/
def hasRequiredKeys (rs : Responses) : Bool :=
  requiredKeys.all fun k => dHas rs (RKey.strKey k)

/-- The argument bundle a Generator invocation receives
(`responses['good_at']` … interpolated into the prompt). -/
structure GenCall where
  good_at : String
  love : String
  world_needs : String
  paid_for : String
  deriving DecidableEq, Repr

/-- Outcome of one protocol invocation: the returned dictionary
(`session_id`, `paths`, `user_responses`), a raised `ValueError`
("Missing required response keys"), or a propagated `SessionError`. -/
inductive GenOutcome where
  | result (session_id : String) (paths : Val) (user_responses : Responses)
  | validationError
  | sessionError
  deriving DecidableEq, Repr

/-- Response value fetched for the prompt (`responses[key]`; total here
via a default that is never reached once validation passed). -/
def respVal (rs : Responses) (k : String) : String :=
  dgetD rs (RKey.strKey k) ""

/-- Lines 159–222 of `generate_ikiguide_with_retry`: the memoization
check, the client guard, the Generator call, and the success/failure
returns.  The third component lists the Generator invocations made,
with their argument bundles. -/
def generateCore (now : Nat) (clientOk : Bool) (gen : Except String (List String))
    (responses : Responses) (sid : String) (sess : Session) (st : Store) :
    GenOutcome × Store × List GenCall :=
  let existing := dget? sess.session_data.user_data "ikiguide_paths"
  if truthy? existing then
    (GenOutcome.result sid (existing.getD (Val.strList [])) responses, st, [])
  else if clientOk = false then
    (GenOutcome.result sid (Val.strList ["ERROR: OpenAI client not initialized"]) responses,
     st, [])
  else
    let call : GenCall :=
      ⟨respVal responses "good_at", respVal responses "love",
       respVal responses "world_needs", respVal responses "paid_for"⟩
    match gen with
    | Except.ok paths =>
      ((GenOutcome.result sid (Val.strList paths) responses),
       (update_session now sid [("ikiguide_paths", Val.strList paths)] st).1, [call])
    | Except.error e =>
      (GenOutcome.result sid (Val.strList ["ERROR: " ++ e]) responses, st, [call])

/-- Lines 154–222: resolve the id via `get_session`, re-creating the
session when the id is stale, then run the core.  `newId2` is the
`uuid4` used by the lazy re-creation. -/
def generateResolve (cfg : Config) (now : Nat) (newId2 : String) (clientOk : Bool)
    (gen : Except String (List String)) (responses : Responses) (sid : String) (st : Store) :
    GenOutcome × Store × List GenCall :=
  match get_session now sid st with
  | (st1, some sess) => generateCore now clientOk gen responses sid sess st1
  | (st1, none) =>
    match create_session cfg now newId2 none st1 with
    | (st2, Except.error _) => (GenOutcome.sessionError, st2, [])
    | (st2, Except.ok sid2) =>
      match get_session now sid2 st2 with
      | (st3, some sess) => generateCore now clientOk gen responses sid2 sess st3
      | (st3, none) => (GenOutcome.sessionError, st3, [])

/-- `generate_ikiguide_with_retry`: numeric-key rewrite, required-keys
validation (raising `ValueError` before any session work), session
resolution (`if not session_id:` also treats the empty string as
absent), then the core.  `newId` is the `uuid4` used when no session id
was supplied. -/
def generate_ikiguide_with_retry (cfg : Config) (now : Nat) (newId newId2 : String)
    (clientOk : Bool) (gen : Except String (List String))
    (responses0 : Responses) (session_id : Option String) (st : Store) :
    GenOutcome × Store × List GenCall :=
  let responses := transformResponses responses0
  if hasRequiredKeys responses = false then (GenOutcome.validationError, st, [])
  else
    let supplied := match session_id with
      | some s => if s = "" then none else some s
      | none => none
    match supplied with
    | some s => generateResolve cfg now newId2 clientOk gen responses s st
    | none =>
      match create_session cfg now newId none st with
      | (st1, Except.error _) => (GenOutcome.sessionError, st1, [])
      | (st1, Except.ok s) => generateResolve cfg now newId2 clientOk gen responses s st1

/-!
Operation traces over the store, for lifetime invariants.  Each
operation carries the `datetime.now()` value it observes; `delete` does
not read the clock but is timestamped the same way so that a trace has
a single nondecreasing time line.
-/

/-- One call into the `SessionManager`. -/
inductive Op where
  | create (t : Nat) (newId : String) (init : Option UserData)
  | get (t : Nat) (sid : String)
  | update (t : Nat) (sid : String) (patch : UserData)
  | delete (t : Nat) (sid : String)

/-- The time at which an operation runs. -/
def Op.time : Op → Nat
  | .create t _ _ => t
  | .get t _ => t
  | .update t _ _ => t
  | .delete t _ => t

/-- Effect of one operation on the store. -/
def step (cfg : Config) (st : Store) : Op → Store
  | .create t newId init => (create_session cfg t newId init st).1
  | .get t sid => (get_session t sid st).1
  | .update t sid patch => (update_session t sid patch st).1
  | .delete _ sid => (delete_session sid st).1

/-- Run a trace of operations. -/
def run (cfg : Config) (st : Store) (ops : List Op) : Store :=
  ops.foldl (step cfg) st

/-- The trace's timestamps are nondecreasing and bounded below by `t`
(the clock never goes backwards). -/
def chronFrom : Nat → List Op → Bool
  | _, [] => true
  | t, op :: rest => decide (t ≤ op.time) && chronFrom op.time rest

/-- Freshness of a `create`'s uuid: it does not collide with a live id. -/
def freshFor (op : Op) (st : Store) : Bool :=
  match op with
  | .create _ newId _ => !dHas st newId
  | _ => true

/-- All records' timestamps are internally ordered and bounded by the
current time. -/
def TimeOK (t : Nat) (st : Store) : Prop :=
  ∀ kr ∈ st, kr.2.created_at ≤ kr.2.last_activity ∧ kr.2.last_activity ≤ t

/-! Dictionary lemmas. -/

section DictLemmas

variable {κ α : Type} [DecidableEq κ]

theorem dget?_dset_self (d : List (κ × α)) (k : κ) (v : α) :
    dget? (dset d k v) k = some v := by
  induction d with
  | nil => simp [dset, dget?]
  | cons kv rest ih =>
    by_cases h : kv.1 = k
    · simp [dset, h, dget?]
    · simp [dset, h, dget?, ih]

theorem dget?_dset_ne (d : List (κ × α)) (k k' : κ) (v : α) (h : k' ≠ k) :
    dget? (dset d k v) k' = dget? d k' := by
  have h' : ¬ (k = k') := fun e => h e.symm
  induction d with
  | nil => simp [dset, dget?, h']
  | cons kv rest ih =>
    by_cases hk : kv.1 = k
    · subst hk
      simp [dset, dget?, h']
    · by_cases hk' : kv.1 = k'
      · simp only [dset, if_neg hk]
        simp [dget?, hk']
      · simp only [dset, if_neg hk]
        simp [dget?, hk', ih]

theorem mem_dset {d : List (κ × α)} {k : κ} {v : α} {x : κ × α}
    (h : x ∈ dset d k v) : x = (k, v) ∨ x ∈ d := by
  induction d with
  | nil => simpa [dset] using h
  | cons kv rest ih =>
    by_cases hk : kv.1 = k
    · simp only [dset, hk, if_pos rfl] at h
      rcases List.mem_cons.mp h with h | h
      · exact Or.inl h
      · exact Or.inr (List.mem_cons_of_mem _ h)
    · simp only [dset, if_neg hk] at h
      rcases List.mem_cons.mp h with h | h
      · exact Or.inr (h ▸ List.mem_cons_self _ _)
      · rcases ih h with h | h
        · exact Or.inl h
        · exact Or.inr (List.mem_cons_of_mem _ h)

theorem length_dset_le (d : List (κ × α)) (k : κ) (v : α) :
    (dset d k v).length ≤ d.length + 1 := by
  induction d with
  | nil => simp [dset]
  | cons kv rest ih =>
    by_cases hk : kv.1 = k
    · simp [dset, hk]
    · simp only [dset, if_neg hk, List.length_cons]
      omega

theorem dget?_mem {d : List (κ × α)} {k : κ} {v : α}
    (h : dget? d k = some v) : (k, v) ∈ d := by
  induction d with
  | nil => simp [dget?] at h
  | cons kv rest ih =>
    by_cases hk : kv.1 = k
    · simp only [dget?, if_pos hk, Option.some.injEq] at h
      exact List.mem_cons.mpr (Or.inl (by rw [← hk, ← h]))
    · simp only [dget?, if_neg hk] at h
      exact List.mem_cons_of_mem _ (ih h)

theorem dHas_iff_mem_keys (d : List (κ × α)) (k : κ) :
    dHas d k = true ↔ k ∈ d.map Prod.fst := by
  induction d with
  | nil => simp [dHas]
  | cons kv rest ih =>
    by_cases hk : kv.1 = k
    · simp [dHas, hk]
    · simp [dHas, hk, ih, Ne.symm hk]

theorem dHas_of_mem {d : List (κ × α)} {k : κ} {v : α}
    (h : (k, v) ∈ d) : dHas d k = true :=
  (dHas_iff_mem_keys d k).mpr (by simpa using List.mem_map_of_mem Prod.fst h)

theorem nodup_dget?_of_mem {d : List (κ × α)} {k : κ} {v : α}
    (hn : (d.map Prod.fst).Nodup) (h : (k, v) ∈ d) : dget? d k = some v := by
  induction d with
  | nil => simp at h
  | cons kv rest ih =>
    rcases List.mem_cons.mp h with h | h
    · simp [← h, dget?]
    · have hk : kv.1 ≠ k := by
        intro hk
        exact (List.nodup_cons.mp hn).1
          (hk ▸ (by simpa using List.mem_map_of_mem Prod.fst h))
      simp [dget?, hk, ih (List.nodup_cons.mp hn).2 h]

theorem mem_unique_of_nodup {d : List (κ × α)} {k : κ} {v v' : α}
    (hn : (d.map Prod.fst).Nodup) (h : (k, v) ∈ d) (h' : (k, v') ∈ d) : v = v' := by
  have e1 := nodup_dget?_of_mem hn h
  have e2 := nodup_dget?_of_mem hn h'
  rw [e1] at e2
  exact Option.some.inj e2

theorem dget?_dErase_self (d : List (κ × α)) (k : κ) :
    dget? (dErase d k) k = none := by
  induction d with
  | nil => simp [dErase, dget?]
  | cons kv rest ih =>
    by_cases hk : kv.1 = k
    · simp [dErase, hk, ih]
    · simp [dErase, hk, dget?, ih]

theorem dget?_dErase_ne (d : List (κ × α)) (k k' : κ) (h : k' ≠ k) :
    dget? (dErase d k) k' = dget? d k' := by
  induction d with
  | nil => simp [dErase]
  | cons kv rest ih =>
    by_cases hk : kv.1 = k
    · have hkk' : ¬ (kv.1 = k') := by
        rw [hk]
        exact fun e => h e.symm
      simp only [dErase, if_pos hk]
      simp [dget?, hkk', ih]
    · by_cases hk' : kv.1 = k'
      · simp only [dErase, if_neg hk]
        simp [dget?, hk']
      · simp only [dErase, if_neg hk]
        simp [dget?, hk', ih]

theorem dErase_subset (d : List (κ × α)) (k : κ) : dErase d k ⊆ d := by
  induction d with
  | nil => simp [dErase]
  | cons kv rest ih =>
    by_cases hk : kv.1 = k
    · simp only [dErase, if_pos hk]
      exact fun x hx => List.mem_cons_of_mem _ (ih hx)
    · simp only [dErase, if_neg hk]
      intro x hx
      rcases List.mem_cons.mp hx with hx | hx
      · exact hx ▸ List.mem_cons_self _ _
      · exact List.mem_cons_of_mem _ (ih hx)

theorem length_dErase_le (d : List (κ × α)) (k : κ) :
    (dErase d k).length ≤ d.length := by
  induction d with
  | nil => simp [dErase]
  | cons kv rest ih =>
    by_cases hk : kv.1 = k
    · simp only [dErase, if_pos hk, List.length_cons]
      omega
    · simp only [dErase, if_neg hk, List.length_cons]
      omega

theorem length_dErase_lt {d : List (κ × α)} {k : κ}
    (h : dHas d k = true) : (dErase d k).length < d.length := by
  induction d with
  | nil => simp [dHas] at h
  | cons kv rest ih =>
    by_cases hk : kv.1 = k
    · have := length_dErase_le rest k
      simp only [dErase, if_pos hk, List.length_cons]
      omega
    · have hrest : dHas rest k = true := by
        simpa [dHas, hk] using h
      simp only [dErase, if_neg hk, List.length_cons]
      exact Nat.succ_lt_succ (ih hrest)

theorem dget?_dUpdate_not_mem (d patch : List (κ × α)) (k : κ)
    (h : dHas patch k = false) : dget? (dUpdate d patch) k = dget? d k := by
  induction patch generalizing d with
  | nil => simp [dUpdate]
  | cons kv rest ih =>
    have hk : kv.1 ≠ k := by
      intro hk
      simp [dHas, hk] at h
    have hrest : dHas rest k = false := by
      simpa [dHas, hk] using h
    show dget? (dUpdate (dset d kv.1 kv.2) rest) k = dget? d k
    rw [ih _ hrest, dget?_dset_ne _ _ _ _ (fun hk' => hk hk'.symm)]

theorem dget?_dUpdate_mem (d : List (κ × α)) {patch : List (κ × α)} {k : κ} {v : α}
    (hn : (patch.map Prod.fst).Nodup) (h : dget? patch k = some v) :
    dget? (dUpdate d patch) k = some v := by
  induction patch generalizing d with
  | nil => simp [dget?] at h
  | cons kv rest ih =>
    by_cases hk : kv.1 = k
    · simp only [dget?, if_pos hk, Option.some.injEq] at h
      have hrest : dHas rest k = false := by
        rcases hh : dHas rest k with _ | _
        · rfl
        · exact absurd (hk ▸ (dHas_iff_mem_keys rest k).mp hh)
            (List.nodup_cons.mp hn).1
      show dget? (dUpdate (dset d kv.1 kv.2) rest) k = some v
      rw [dget?_dUpdate_not_mem _ _ _ hrest, hk, dget?_dset_self, h]
    · simp only [dget?, if_neg hk] at h
      show dget? (dUpdate (dset d kv.1 kv.2) rest) k = some v
      exact ih _ (List.nodup_cons.mp hn).2 h

end DictLemmas

/-! Store lemmas: cleanup, eviction order, capacity. -/

theorem mem_removeExpired {cfg : Config} {now : Nat} {st : Store} {x : String × SessionRecord}
    (h : x ∈ removeExpired cfg now st) :
    x ∈ st ∧ now - x.2.created_at ≤ cfg.session_timeout := by
  induction st with
  | nil => simp [removeExpired] at h
  | cons kr rest ih =>
    by_cases he : cfg.session_timeout < now - kr.2.created_at
    · simp only [removeExpired, if_pos he] at h
      exact ⟨List.mem_cons_of_mem _ (ih h).1, (ih h).2⟩
    · simp only [removeExpired, if_neg he] at h
      rcases List.mem_cons.mp h with h | h
      · exact ⟨h ▸ List.mem_cons_self _ _, h ▸ Nat.le_of_not_lt he⟩
      · exact ⟨List.mem_cons_of_mem _ (ih h).1, (ih h).2⟩

theorem not_mem_removeExpired {cfg : Config} {now : Nat} {st : Store}
    {x : String × SessionRecord} (h : cfg.session_timeout < now - x.2.created_at) :
    x ∉ removeExpired cfg now st := by
  intro hx
  exact absurd h (Nat.not_lt.mpr (mem_removeExpired hx).2)

theorem oldestEntry_mem {st : Store} :
    ∀ {kr : String × SessionRecord}, oldestEntry st = some kr → kr ∈ st := by
  induction st with
  | nil => intro kr h; simp [oldestEntry] at h
  | cons hd rest ih =>
    intro kr h
    match hrest : oldestEntry rest with
    | none =>
      simp only [oldestEntry, hrest, Option.some.injEq] at h
      exact h ▸ List.mem_cons_self _ _
    | some kr' =>
      simp only [oldestEntry, hrest] at h
      by_cases hle : hd.2.created_at ≤ kr'.2.created_at
      · simp only [if_pos hle, Option.some.injEq] at h
        exact h ▸ List.mem_cons_self _ _
      · simp only [if_neg hle, Option.some.injEq] at h
        exact List.mem_cons_of_mem _ (h ▸ ih hrest)

theorem oldestEntry_eq_none {st : Store} (h : oldestEntry st = none) : st = [] := by
  cases st with
  | nil => rfl
  | cons hd rest =>
    simp only [oldestEntry] at h
    cases hh : oldestEntry rest
    · simp [hh] at h
    · simp only [hh] at h
      split at h <;> simp_all

theorem oldestEntry_min {st : Store} :
    ∀ {kr : String × SessionRecord}, oldestEntry st = some kr →
    ∀ x ∈ st, kr.2.created_at ≤ x.2.created_at := by
  induction st with
  | nil => intro kr h; simp [oldestEntry] at h
  | cons hd rest ih =>
    intro kr h x hx
    match hrest : oldestEntry rest with
    | none =>
      have hnil : rest = [] := oldestEntry_eq_none hrest
      subst hnil
      simp only [oldestEntry, Option.some.injEq] at h
      rcases List.mem_cons.mp hx with hx | hx
      · exact h ▸ hx ▸ le_refl _
      · simp at hx
    | some kr' =>
      simp only [oldestEntry, hrest] at h
      by_cases hle : hd.2.created_at ≤ kr'.2.created_at
      · simp only [if_pos hle, Option.some.injEq] at h
        subst h
        rcases List.mem_cons.mp hx with hx | hx
        · exact hx ▸ le_refl _
        · exact le_trans hle (ih hrest x hx)
      · simp only [if_neg hle, Option.some.injEq] at h
        subst h
        rcases List.mem_cons.mp hx with hx | hx
        · exact hx ▸ Nat.le_of_lt (Nat.lt_of_not_le hle)
        · exact ih hrest x hx

theorem trimAux_subset (cfg : Config) : ∀ (fuel : Nat) (st : Store),
    trimAux cfg fuel st ⊆ st := by
  intro fuel
  induction fuel with
  | zero => intro st; simp [trimAux]
  | succ n ih =>
    intro st
    by_cases hlen : cfg.max_sessions < st.length
    · simp only [trimAux, if_pos hlen]
      match hold : oldestEntry st with
      | none => exact fun x hx => hx
      | some kr =>
        exact fun x hx => dErase_subset st kr.1 (ih (dErase st kr.1) hx)
    · simp only [trimAux, if_neg hlen]
      exact fun x hx => hx

theorem trimAux_length (cfg : Config) : ∀ (fuel : Nat) (st : Store),
    st.length ≤ fuel + cfg.max_sessions →
    (trimAux cfg fuel st).length ≤ cfg.max_sessions := by
  intro fuel
  induction fuel with
  | zero =>
    intro st h
    simpa [trimAux] using h
  | succ n ih =>
    intro st h
    by_cases hlen : cfg.max_sessions < st.length
    · simp only [trimAux, if_pos hlen]
      match hold : oldestEntry st with
      | none =>
        rw [oldestEntry_eq_none hold] at hlen
        simp at hlen
      | some kr =>
        have hmem := oldestEntry_mem hold
        have hlt := length_dErase_lt (dHas_of_mem hmem)
        exact ih (dErase st kr.1) (by omega)
    · simpa [trimAux, if_neg hlen] using Nat.le_of_not_lt hlen

theorem cleanupExpired_subset (cfg : Config) (now : Nat) (st : Store) :
    cleanupExpired cfg now st ⊆ st := by
  intro x hx
  exact (mem_removeExpired (trimAux_subset cfg _ _ hx)).1

theorem cleanupExpired_length (cfg : Config) (now : Nat) (st : Store) :
    (cleanupExpired cfg now st).length ≤ cfg.max_sessions :=
  trimAux_length cfg _ _ (by omega)

theorem mem_cleanupExpired {cfg : Config} {now : Nat} {st : Store}
    {x : String × SessionRecord} (h : x ∈ cleanupExpired cfg now st) :
    x ∈ st ∧ now - x.2.created_at ≤ cfg.session_timeout :=
  mem_removeExpired (trimAux_subset cfg _ _ h)

/-! Concrete fixtures shared by the witnesses and counterexamples. -/

/-- The default `SessionManager()` configuration:
`max_sessions=1000`, `session_timeout=24`. -/
def cfgD : Config := ⟨1000, 24⟩

/-- A two-slot configuration for the eviction example. -/
def cfg2 : Config := ⟨2, 1000⟩

/-- A fresh record created at time 0. -/
def recZero : SessionRecord := ⟨0, [], 0, []⟩

/-- A store holding one session `"s"`. -/
def stOne : Store := [("s", recZero)]

/-- A complete, string-keyed response bundle. -/
def resp4 : Responses :=
  [(RKey.strKey "good_at", "a"), (RKey.strKey "love", "b"),
   (RKey.strKey "world_needs", "c"), (RKey.strKey "paid_for", "d")]

/-- Sessions `A` (created 1, touched at 5) and `B` (created 2): `A` is
oldest-created but most recently active. -/
def stAB : Store := [("A", ⟨1, [], 5, []⟩), ("B", ⟨2, [], 2, []⟩)]

/-- C3: for every store state, after any `create_session` call returns
normally, the store holds at most `max_sessions` records (the cleanup
pass trims to the bound, an eviction then makes room for the insertion). -/
theorem C3_capacity_invariant (cfg : Config) (now : Nat) (newId : String)
    (init : Option UserData) (st st' : Store) (sid : String)
    (h : create_session cfg now newId init st = (st', Except.ok sid)) :
    st'.length ≤ cfg.max_sessions := by
  have h1 := cleanupExpired_length cfg now st
  simp only [create_session] at h
  by_cases hc : cfg.max_sessions ≤ (cleanupExpired cfg now st).length
  · rw [if_pos hc] at h
    match hold : oldestEntry (cleanupExpired cfg now st) with
    | none =>
      rw [hold] at h
      simp at h
    | some kr =>
      rw [hold] at h
      rw [Prod.mk.injEq] at h
      obtain ⟨hst', -⟩ := h
      have hlt := length_dErase_lt (dHas_of_mem (oldestEntry_mem hold))
      have hle := length_dset_le (dErase (cleanupExpired cfg now st) kr.1) newId
        ⟨now, init.getD [], now, []⟩
      rw [← hst']
      omega
  · rw [if_neg hc] at h
    rw [Prod.mk.injEq] at h
    obtain ⟨hst', -⟩ := h
    have hle := length_dset_le (cleanupExpired cfg now st) newId
      ⟨now, init.getD [], now, []⟩
    rw [← hst']
    omega

/-- C3 witness: a concrete `create_session` call under the default
configuration, whose resulting store is within the bound. -/
theorem C3_capacity_witness :
    create_session cfgD 2 "t" none stOne =
      ([("s", recZero), ("t", ⟨2, [], 2, []⟩)], Except.ok "t") ∧
    ([("s", recZero), ("t", ⟨2, [], 2, []⟩)] : Store).length ≤ cfgD.max_sessions :=
  ⟨rfl,
   C3_capacity_invariant cfgD 2 "t" none stOne
     [("s", recZero), ("t", ⟨2, [], 2, []⟩)] "t" rfl⟩

/-- C4: after any `create_session` call returns normally, no record in
the store has age `now - created_at` strictly above the timeout — the
cleanup pass removed every such record before insertion, and the new
record has age zero. -/
theorem C4_ttl_invariant (cfg : Config) (now : Nat) (newId : String)
    (init : Option UserData) (st st' : Store) (sid : String)
    (h : create_session cfg now newId init st = (st', Except.ok sid)) :
    ∀ x ∈ st', now - x.2.created_at ≤ cfg.session_timeout := by
  intro x hx
  simp only [create_session] at h
  by_cases hc : cfg.max_sessions ≤ (cleanupExpired cfg now st).length
  · rw [if_pos hc] at h
    match hold : oldestEntry (cleanupExpired cfg now st) with
    | none =>
      rw [hold] at h
      simp at h
    | some kr =>
      rw [hold] at h
      rw [Prod.mk.injEq] at h
      obtain ⟨hst', -⟩ := h
      rw [← hst'] at hx
      rcases mem_dset hx with hx | hx
      · subst hx
        simp
      · exact (mem_cleanupExpired (dErase_subset _ _ hx)).2
  · rw [if_neg hc] at h
    rw [Prod.mk.injEq] at h
    obtain ⟨hst', -⟩ := h
    rw [← hst'] at hx
    rcases mem_dset hx with hx | hx
    · subst hx
      simp
    · exact (mem_cleanupExpired hx).2

/-- C4 witness: creating at time 100 over a store holding a record of
age 100 (timeout 24) removes it; the surviving record is the new one,
of age zero. -/
theorem C4_ttl_witness :
    create_session cfgD 100 "t" none [("old", recZero)] =
      ([("t", ⟨100, [], 100, []⟩)], Except.ok "t") ∧
    100 - (100 : Nat) ≤ cfgD.session_timeout :=
  ⟨rfl,
   C4_ttl_invariant cfgD 100 "t" none [("old", recZero)]
     [("t", ⟨100, [], 100, []⟩)] "t" rfl
     ("t", ⟨100, [], 100, []⟩) (by decide)⟩

/-- C5: whenever `create_session` must evict for capacity (the cleaned
store is still at the bound), it removes exactly one record whose
`created_at` is minimal over the whole cleaned store — oldest-created,
with no reference to `last_activity` — and inserts the new record into
the remainder. -/
theorem C5_eviction_policy (cfg : Config) (now : Nat) (newId : String)
    (init : Option UserData) (st st' : Store) (sid : String)
    (h : create_session cfg now newId init st = (st', Except.ok sid))
    (hcap : cfg.max_sessions ≤ (cleanupExpired cfg now st).length) :
    ∃ k r, (k, r) ∈ cleanupExpired cfg now st ∧
      (∀ x ∈ cleanupExpired cfg now st, r.created_at ≤ x.2.created_at) ∧
      st' = dset (dErase (cleanupExpired cfg now st) k) newId
        ⟨now, init.getD [], now, []⟩ := by
  simp only [create_session] at h
  rw [if_pos hcap] at h
  match hold : oldestEntry (cleanupExpired cfg now st) with
  | none =>
    rw [hold] at h
    simp at h
  | some kr =>
    rw [hold] at h
    rw [Prod.mk.injEq] at h
    obtain ⟨hst', -⟩ := h
    exact ⟨kr.1, kr.2, oldestEntry_mem hold, oldestEntry_min hold, hst'.symm⟩

/-- C5 witness: with `max_sessions = 2`, after creating `A` (created 1,
`last_activity` 5) and `B` (created 2), creating `C` evicts `A` — the
oldest-created record, although `B` is the least recently used — and
leaves exactly `B` and `C`. -/
theorem C5_eviction_witness :
    create_session cfg2 6 "C" none stAB =
      ([("B", ⟨2, [], 2, []⟩), ("C", ⟨6, [], 6, []⟩)], Except.ok "C") ∧
    cfg2.max_sessions ≤ (cleanupExpired cfg2 6 stAB).length ∧
    ∃ k r, (k, r) ∈ cleanupExpired cfg2 6 stAB ∧
      (∀ x ∈ cleanupExpired cfg2 6 stAB, r.created_at ≤ x.2.created_at) ∧
      ([("B", ⟨2, [], 2, []⟩), ("C", ⟨6, [], 6, []⟩)] : Store) =
        dset (dErase (cleanupExpired cfg2 6 stAB) k) "C"
          ⟨6, (none : Option UserData).getD [], 6, []⟩ :=
  ⟨rfl, by decide,
   C5_eviction_policy cfg2 6 "C" none stAB
     [("B", ⟨2, [], 2, []⟩), ("C", ⟨6, [], 6, []⟩)] "C" rfl (by decide)⟩

/-! Equation lemmas for `get_session` and `update_session`. -/

theorem get_session_hit {st : Store} {sid : String} {r : SessionRecord} (now : Nat)
    (h : dget? st sid = some r) :
    get_session now sid st =
      (dset st sid { r with last_activity := now },
       some ⟨sid, { r with last_activity := now }⟩) := by
  simp [get_session, h]

theorem get_session_miss {st : Store} {sid : String} (now : Nat)
    (h : dget? st sid = none) :
    get_session now sid st = (st, none) := by
  simp [get_session, h]

theorem update_session_hit {st : Store} {sid : String} {r : SessionRecord}
    (now : Nat) (patch : UserData) (h : dget? st sid = some r) :
    update_session now sid patch st =
      (dset (dset st sid { r with last_activity := now }) sid
        { r with user_data := dUpdate r.user_data patch, last_activity := now },
       true) := by
  simp [update_session, get_session_hit now h]

theorem update_session_miss {st : Store} {sid : String} (now : Nat) (patch : UserData)
    (h : dget? st sid = none) :
    update_session now sid patch st = (st, false) := by
  simp [update_session, get_session_miss now h]

/-- C7: `update_session` on an absent id returns `false` and leaves the
store untouched (so no record appears as a side effect); on a present
id it shallow-merges the patch into `user_data` — patch keys overwrite,
untouched keys survive — stamps `last_activity = now`, and returns
`true`. -/
theorem C7_update_semantics :
    (∀ (now : Nat) (sid : String) (patch : UserData) (st : Store),
      dget? st sid = none → update_session now sid patch st = (st, false)) ∧
    (∀ (now : Nat) (sid : String) (patch : UserData) (st : Store) (r : SessionRecord),
      dget? st sid = some r → (patch.map Prod.fst).Nodup →
      (update_session now sid patch st).2 = true ∧
      dget? (update_session now sid patch st).1 sid =
        some ⟨r.created_at, dUpdate r.user_data patch, now, r.user_responses⟩ ∧
      (∀ k v, dget? patch k = some v → dget? (dUpdate r.user_data patch) k = some v) ∧
      (∀ k, dHas patch k = false →
        dget? (dUpdate r.user_data patch) k = dget? r.user_data k)) := by
  constructor
  · intro now sid patch st h
    exact update_session_miss now patch h
  · intro now sid patch st r h hn
    rw [update_session_hit now patch h]
    refine ⟨rfl, ?_, ?_, ?_⟩
    · rw [dget?_dset_self]
    · intro k v hv
      exact dget?_dUpdate_mem _ hn hv
    · intro k hk
      exact dget?_dUpdate_not_mem _ _ _ hk

/-- Record fixture for the update example. -/
def recW : SessionRecord := ⟨0, [("a", Val.str "1"), ("b", Val.str "2")], 0, []⟩

/-- Store fixture for the update example. -/
def stW : Store := [("s", recW)]

/-- Patch fixture: overwrites `"b"`, adds `"c"`, leaves `"a"` alone. -/
def patchW : UserData := [("b", Val.str "9"), ("c", Val.str "3")]

/-- C7 witness: the absent-id and present-id behaviors on a concrete
store — `"b"` is overwritten, `"a"` survives, `last_activity` is
stamped, the unknown id changes nothing. -/
theorem C7_update_witness :
    dget? stW "zz" = none ∧
    update_session 5 "zz" patchW stW = (stW, false) ∧
    dget? stW "s" = some recW ∧
    (patchW.map Prod.fst).Nodup ∧
    (update_session 5 "s" patchW stW).2 = true ∧
    dget? (update_session 5 "s" patchW stW).1 "s" =
      some ⟨0, [("a", Val.str "1"), ("b", Val.str "9"), ("c", Val.str "3")], 5, []⟩ ∧
    dget? (dUpdate recW.user_data patchW) "b" = some (Val.str "9") ∧
    dget? (dUpdate recW.user_data patchW) "a" = dget? recW.user_data "a" :=
  ⟨by decide,
   C7_update_semantics.1 5 "zz" patchW stW (by decide),
   by decide, by decide,
   (C7_update_semantics.2 5 "s" patchW stW recW (by decide) (by decide)).1,
   (C7_update_semantics.2 5 "s" patchW stW recW (by decide) (by decide)).2.1,
   (C7_update_semantics.2 5 "s" patchW stW recW (by decide) (by decide)).2.2.1
     "b" (Val.str "9") (by decide),
   (C7_update_semantics.2 5 "s" patchW stW recW (by decide) (by decide)).2.2.2
     "a" (by decide)⟩

/-- C9: `get_session` performs no age check — a record whose age
exceeds the timeout is still returned (with `last_activity` refreshed)
by `get` at any later time, even though the cleanup pass that only
`create_session` runs would remove it. -/
theorem C9_get_ignores_expiry (cfg : Config) (now : Nat) (sid : String) (st : Store)
    (r : SessionRecord) (h : dget? st sid = some r)
    (hexp : cfg.session_timeout < now - r.created_at) :
    get_session now sid st =
      (dset st sid { r with last_activity := now },
       some ⟨sid, { r with last_activity := now }⟩) ∧
    (sid, r) ∉ removeExpired cfg now st :=
  ⟨get_session_hit now h, not_mem_removeExpired hexp⟩

/-- C9 witness: the session created at time 0 is far beyond the
24-unit timeout at time 100, yet `get_session` still returns it. -/
theorem C9_expiry_witness :
    dget? stOne "s" = some recZero ∧
    cfgD.session_timeout < 100 - recZero.created_at ∧
    (get_session 100 "s" stOne =
      (dset stOne "s" { recZero with last_activity := 100 },
       some ⟨"s", { recZero with last_activity := 100 }⟩) ∧
     ("s", recZero) ∉ removeExpired cfgD 100 stOne) :=
  ⟨by decide, by decide,
   C9_get_ignores_expiry cfgD 100 "s" stOne recZero (by decide) (by decide)⟩

/-! Trace lemmas for the timestamp invariant. -/

theorem TimeOK_mono {t t' : Nat} {st : Store} (h : TimeOK t st) (hle : t ≤ t') :
    TimeOK t' st :=
  fun kr hkr => ⟨(h kr hkr).1, le_trans (h kr hkr).2 hle⟩

theorem TimeOK_subset {t : Nat} {st st' : Store} (hsub : st' ⊆ st) (h : TimeOK t st) :
    TimeOK t st' :=
  fun kr hkr => h kr (hsub hkr)

theorem TimeOK_dset {t : Nat} {st : Store} {k : String} {v : SessionRecord}
    (h : TimeOK t st) (h1 : v.created_at ≤ v.last_activity) (h2 : v.last_activity ≤ t) :
    TimeOK t (dset st k v) := by
  intro kr hkr
  rcases mem_dset hkr with e | e
  · subst e
    exact ⟨h1, h2⟩
  · exact h kr e

theorem mem_create_session {cfg : Config} {t' : Nat} {newId : String}
    {init : Option UserData} {st : Store} {x : String × SessionRecord}
    (hx : x ∈ (create_session cfg t' newId init st).1) :
    x = (newId, ⟨t', init.getD [], t', []⟩) ∨ x ∈ st := by
  simp only [create_session] at hx
  by_cases hc : cfg.max_sessions ≤ (cleanupExpired cfg t' st).length
  · rw [if_pos hc] at hx
    match hold : oldestEntry (cleanupExpired cfg t' st) with
    | none =>
      rw [hold] at hx
      exact Or.inr (cleanupExpired_subset cfg t' st hx)
    | some kr =>
      rw [hold] at hx
      rcases mem_dset hx with e | e
      · exact Or.inl e
      · exact Or.inr (cleanupExpired_subset cfg t' st (dErase_subset _ _ e))
  · rw [if_neg hc] at hx
    rcases mem_dset hx with e | e
    · exact Or.inl e
    · exact Or.inr (cleanupExpired_subset cfg t' st e)

theorem step_TimeOK {cfg : Config} {t : Nat} {st : Store} (op : Op)
    (h : TimeOK t st) (hle : t ≤ op.time) : TimeOK op.time (step cfg st op) := by
  have h' : TimeOK op.time st := TimeOK_mono h hle
  cases op with
  | create t' newId init =>
    intro kr hkr
    rcases mem_create_session hkr with e | e
    · subst e
      exact ⟨le_refl _, le_refl _⟩
    · exact h' kr e
  | get t' sid =>
    show TimeOK t' (get_session t' sid st).1
    cases hg : dget? st sid with
    | some r =>
      rw [get_session_hit t' hg]
      have hr := h' (sid, r) (dget?_mem hg)
      exact TimeOK_dset h' (le_trans hr.1 hr.2) (le_refl _)
    | none =>
      rw [get_session_miss t' hg]
      exact h'
  | update t' sid patch =>
    show TimeOK t' (update_session t' sid patch st).1
    cases hg : dget? st sid with
    | some r =>
      rw [update_session_hit t' patch hg]
      have hr := h' (sid, r) (dget?_mem hg)
      exact TimeOK_dset (TimeOK_dset h' (le_trans hr.1 hr.2) (le_refl _))
        (le_trans hr.1 hr.2) (le_refl _)
    | none =>
      rw [update_session_miss t' patch hg]
      exact h'
  | delete t' sid =>
    show TimeOK t' (delete_session sid st).1
    simp only [delete_session]
    split
    · exact TimeOK_subset (dErase_subset st sid) h'
    · exact h'

theorem run_TimeOK (cfg : Config) : ∀ (ops : List Op) (t : Nat) (st : Store),
    TimeOK t st → chronFrom t ops = true →
    ∃ t', TimeOK t' (run cfg st ops) := by
  intro ops
  induction ops with
  | nil =>
    intro t st h _
    exact ⟨t, h⟩
  | cons op rest ih =>
    intro t st h hc
    simp only [chronFrom, Bool.and_eq_true, decide_eq_true_eq] at hc
    exact ih op.time (step cfg st op) (step_TimeOK op h hc.1) hc.2

/-- C8: along any trace of store operations with a nondecreasing clock,
every live record satisfies `created_at ≤ last_activity`; and over a
single operation on a well-formed store (unique ids, fresh uuid for a
create), a surviving record's `created_at` never changes while its
`last_activity` is either untouched or stamped with that operation's
current time (which `get` and `update` do). -/
theorem C8_timestamp_invariant :
    (∀ (cfg : Config) (ops : List Op), chronFrom 0 ops = true →
      ∀ kr ∈ run cfg [] ops, kr.2.created_at ≤ kr.2.last_activity) ∧
    (∀ (cfg : Config) (st : Store) (op : Op) (sid : String) (r r' : SessionRecord),
      (st.map Prod.fst).Nodup → freshFor op st = true →
      dget? st sid = some r → dget? (step cfg st op) sid = some r' →
      r'.created_at = r.created_at ∧
      (r'.last_activity = r.last_activity ∨ r'.last_activity = op.time)) := by
  constructor
  · intro cfg ops hc kr hkr
    obtain ⟨t', h⟩ := run_TimeOK cfg ops 0 [] (fun x hx => absurd hx (List.not_mem_nil x)) hc
    exact (h kr hkr).1
  · intro cfg st op sid r r' hn hf h1 h2
    cases op with
    | create t' newId init =>
      have hfresh : dHas st newId = false := by
        simpa [freshFor] using hf
      have hsid : sid ≠ newId := by
        intro e
        rw [← e] at hfresh
        rw [dHas_of_mem (dget?_mem h1)] at hfresh
        simp at hfresh
      have hmem' : (sid, r') ∈ st := by
        rcases mem_create_session (dget?_mem h2) with e | e
        · exact absurd (congrArg Prod.fst e) hsid
        · exact e
      have : r = r' := mem_unique_of_nodup hn (dget?_mem h1) hmem'
      exact this ▸ ⟨rfl, Or.inl rfl⟩
    | get t' sid' =>
      by_cases hsid : sid = sid'
      · subst hsid
        rw [show step cfg st (Op.get t' sid) = (get_session t' sid st).1 from rfl,
          get_session_hit t' h1, dget?_dset_self] at h2
        cases h2
        exact ⟨rfl, Or.inr rfl⟩
      · rw [show step cfg st (Op.get t' sid') = (get_session t' sid' st).1 from rfl] at h2
        cases hg : dget? st sid' with
        | some r0 =>
          rw [get_session_hit t' hg, dget?_dset_ne _ _ _ _ hsid, h1] at h2
          cases h2
          exact ⟨rfl, Or.inl rfl⟩
        | none =>
          rw [get_session_miss t' hg, h1] at h2
          cases h2
          exact ⟨rfl, Or.inl rfl⟩
    | update t' sid' patch =>
      by_cases hsid : sid = sid'
      · subst hsid
        rw [show step cfg st (Op.update t' sid patch) = (update_session t' sid patch st).1
            from rfl, update_session_hit t' patch h1, dget?_dset_self] at h2
        cases h2
        exact ⟨rfl, Or.inr rfl⟩
      · rw [show step cfg st (Op.update t' sid' patch) = (update_session t' sid' patch st).1
            from rfl] at h2
        cases hg : dget? st sid' with
        | some r0 =>
          rw [update_session_hit t' patch hg, dget?_dset_ne _ _ _ _ hsid,
            dget?_dset_ne _ _ _ _ hsid, h1] at h2
          cases h2
          exact ⟨rfl, Or.inl rfl⟩
        | none =>
          rw [update_session_miss t' patch hg, h1] at h2
          cases h2
          exact ⟨rfl, Or.inl rfl⟩
    | delete t' sid' =>
      rw [show step cfg st (Op.delete t' sid') = (delete_session sid' st).1 from rfl] at h2
      by_cases hsid : sid = sid'
      · subst hsid
        simp only [delete_session] at h2
        by_cases hh : dHas st sid
        · rw [if_pos hh] at h2
          rw [show ((dErase st sid, true) : Store × Bool).1 = dErase st sid from rfl,
            dget?_dErase_self] at h2
          cases h2
        · rw [if_neg hh] at h2
          rw [h1] at h2
          cases h2
          exact ⟨rfl, Or.inl rfl⟩
      · simp only [delete_session] at h2
        by_cases hh : dHas st sid'
        · rw [if_pos hh] at h2
          rw [show ((dErase st sid', true) : Store × Bool).1 = dErase st sid' from rfl,
            dget?_dErase_ne _ _ _ hsid, h1] at h2
          cases h2
          exact ⟨rfl, Or.inl rfl⟩
        · rw [if_neg hh] at h2
          rw [h1] at h2
          cases h2
          exact ⟨rfl, Or.inl rfl⟩

/-- A small chronological trace: create, touch, update, create. -/
def opsW : List Op :=
  [Op.create 1 "a" none, Op.get 2 "a",
   Op.update 3 "a" [("x", Val.str "y")], Op.create 4 "b" none]

/-- C8 witness: the invariant instantiated on a concrete trace (the
record touched at 3 keeps `created_at = 1`), and the single-step
stability instantiated on a concrete `get`. -/
theorem C8_timestamp_witness :
    chronFrom 0 opsW = true ∧
    ("a", (⟨1, [("x", Val.str "y")], 3, []⟩ : SessionRecord)) ∈ run cfgD [] opsW ∧
    (1 : Nat) ≤ 3 ∧
    (stOne.map Prod.fst).Nodup ∧
    freshFor (Op.get 7 "s") stOne = true ∧
    dget? stOne "s" = some recZero ∧
    dget? (step cfgD stOne (Op.get 7 "s")) "s" = some ⟨0, [], 7, []⟩ ∧
    ((⟨0, [], 7, []⟩ : SessionRecord).created_at = recZero.created_at ∧
     ((⟨0, [], 7, []⟩ : SessionRecord).last_activity = recZero.last_activity ∨
      (⟨0, [], 7, []⟩ : SessionRecord).last_activity = (Op.get 7 "s").time)) :=
  ⟨by decide, by decide,
   C8_timestamp_invariant.1 cfgD opsW (by decide)
     ("a", ⟨1, [("x", Val.str "y")], 3, []⟩) (by decide),
   by decide, by decide, by decide, by decide,
   C8_timestamp_invariant.2 cfgD stOne (Op.get 7 "s") "s" recZero ⟨0, [], 7, []⟩
     (by decide) (by decide) (by decide) (by decide)⟩

/-! Equation lemmas for the generation protocol. -/

theorem generate_valid_some (cfg : Config) (now : Nat) (n1 n2 : String) (clientOk : Bool)
    (gen : Except String (List String)) (responses : Responses) (sid : String) (st : Store)
    (hv : hasRequiredKeys (transformResponses responses) = true) (hs : sid ≠ "") :
    generate_ikiguide_with_retry cfg now n1 n2 clientOk gen responses (some sid) st =
      generateResolve cfg now n2 clientOk gen (transformResponses responses) sid st := by
  simp [generate_ikiguide_with_retry, hv, hs]

theorem generateResolve_hit (cfg : Config) (now : Nat) (n2 : String) (clientOk : Bool)
    (gen : Except String (List String)) (responses : Responses) (sid : String)
    (st : Store) (r : SessionRecord) (h : dget? st sid = some r) :
    generateResolve cfg now n2 clientOk gen responses sid st =
      generateCore now clientOk gen responses sid
        ⟨sid, { r with last_activity := now }⟩
        (dset st sid { r with last_activity := now }) := by
  simp [generateResolve, get_session_hit now h]

theorem generateCore_memo (now : Nat) (clientOk : Bool)
    (gen : Except String (List String)) (responses : Responses) (sid : String)
    (sess : Session) (st : Store)
    (h : truthy? (dget? sess.session_data.user_data "ikiguide_paths") = true) :
    generateCore now clientOk gen responses sid sess st =
      (GenOutcome.result sid
        ((dget? sess.session_data.user_data "ikiguide_paths").getD (Val.strList []))
        responses, st, []) := by
  simp [generateCore, h]

theorem generateCore_ok (now : Nat) (responses : Responses) (sid : String)
    (sess : Session) (st : Store) (paths : List String)
    (h : truthy? (dget? sess.session_data.user_data "ikiguide_paths") = false) :
    generateCore now true (Except.ok paths) responses sid sess st =
      (GenOutcome.result sid (Val.strList paths) responses,
       (update_session now sid [("ikiguide_paths", Val.strList paths)] st).1,
       [⟨respVal responses "good_at", respVal responses "love",
         respVal responses "world_needs", respVal responses "paid_for"⟩]) := by
  simp [generateCore, h]

theorem generateCore_err (now : Nat) (responses : Responses) (sid : String)
    (sess : Session) (st : Store) (e : String)
    (h : truthy? (dget? sess.session_data.user_data "ikiguide_paths") = false) :
    generateCore now true (Except.error e) responses sid sess st =
      (GenOutcome.result sid (Val.strList ["ERROR: " ++ e]) responses, st,
       [⟨respVal responses "good_at", respVal responses "love",
         respVal responses "world_needs", respVal responses "paid_for"⟩]) := by
  simp [generateCore, h]

theorem generateCore_calls (now : Nat) (gen : Except String (List String))
    (responses : Responses) (sid : String) (sess : Session) (st : Store)
    (h : truthy? (dget? sess.session_data.user_data "ikiguide_paths") = false) :
    (generateCore now true gen responses sid sess st).2.2.length = 1 := by
  cases gen with
  | ok paths =>
    rw [generateCore_ok now responses sid sess st paths h]
    rfl
  | error e =>
    rw [generateCore_err now responses sid sess st e h]
    rfl

/-- C6 counterexample: the empty responses mapping is missing all four
required keys, yet — because every key of the empty mapping is
vacuously an integer — the numeric-key rewrite fills in the four keys
with empty strings, validation passes, the protocol does not fail with
a `ValidationError`, and the Generator is invoked (with four empty
answers). -/
theorem C6_validation_counterexample :
    (generate_ikiguide_with_retry cfgD 1 "n1" "n2" true (Except.ok ["P"]) [] (some "s")
        stOne).1 ≠ GenOutcome.validationError ∧
    (generate_ikiguide_with_retry cfgD 1 "n1" "n2" true (Except.ok ["P"]) [] (some "s")
        stOne).2.2 = [⟨"", "", "", ""⟩] := by
  decide

/-- C6 (amended): for every responses mapping whose keys are not all
integers (so the numeric-key rewrite does not apply) and which is
missing one of the four required keys, the protocol fails with a
`ValidationError`, the Generator is never called, and the store is
untouched — in particular no `ikiguide_paths` is written to any
session. -/
theorem C6_validation_precondition (cfg : Config) (now : Nat) (n1 n2 : String)
    (clientOk : Bool) (gen : Except String (List String)) (responses : Responses)
    (session_id : Option String) (st : Store)
    (hi : allIntKeys responses = false)
    (hm : hasRequiredKeys responses = false) :
    generate_ikiguide_with_retry cfg now n1 n2 clientOk gen responses session_id st =
      (GenOutcome.validationError, st, []) := by
  have ht : transformResponses responses = responses := by
    simp [transformResponses, hi]
  simp [generate_ikiguide_with_retry, ht, hm]

/-- C6 witness: the spec's own example `{good_at: "x"}` (three keys
missing) fails validation with no Generator call and no store write. -/
theorem C6_validation_witness :
    allIntKeys [(RKey.strKey "good_at", "x")] = false ∧
    hasRequiredKeys [(RKey.strKey "good_at", "x")] = false ∧
    generate_ikiguide_with_retry cfgD 1 "n1" "n2" true (Except.ok ["P"])
        [(RKey.strKey "good_at", "x")] (some "s") stOne =
      (GenOutcome.validationError, stOne, []) :=
  ⟨by decide, by decide,
   C6_validation_precondition cfgD 1 "n1" "n2" true (Except.ok ["P"])
     [(RKey.strKey "good_at", "x")] (some "s") stOne (by decide) (by decide)⟩

/-- C10: when every key of the responses mapping is an integer, the
mapping is silently rewritten to the four required string keys with
`responses.get(i, '')` for `i = 1..4` — so validation always succeeds,
even when some or all answers are absent — and the Generator is then
invoked with exactly those (possibly empty) answer strings. -/
theorem C10_numeric_key_rewrite :
    (∀ responses : Responses, allIntKeys responses = true →
      transformResponses responses =
        [(RKey.strKey "good_at", dgetD responses (RKey.intKey 1) ""),
         (RKey.strKey "love", dgetD responses (RKey.intKey 2) ""),
         (RKey.strKey "world_needs", dgetD responses (RKey.intKey 3) ""),
         (RKey.strKey "paid_for", dgetD responses (RKey.intKey 4) "")] ∧
      hasRequiredKeys (transformResponses responses) = true) ∧
    (∀ (cfg : Config) (now : Nat) (n1 n2 : String) (gen : Except String (List String))
       (responses : Responses) (sid : String) (st : Store) (r : SessionRecord),
      allIntKeys responses = true →
      dget? st sid = some r →
      truthy? (dget? r.user_data "ikiguide_paths") = false →
      sid ≠ "" →
      (generate_ikiguide_with_retry cfg now n1 n2 true gen responses (some sid) st).2.2 =
        [⟨dgetD responses (RKey.intKey 1) "", dgetD responses (RKey.intKey 2) "",
          dgetD responses (RKey.intKey 3) "", dgetD responses (RKey.intKey 4) ""⟩]) := by
  have p1 : ∀ responses : Responses, allIntKeys responses = true →
      transformResponses responses =
        [(RKey.strKey "good_at", dgetD responses (RKey.intKey 1) ""),
         (RKey.strKey "love", dgetD responses (RKey.intKey 2) ""),
         (RKey.strKey "world_needs", dgetD responses (RKey.intKey 3) ""),
         (RKey.strKey "paid_for", dgetD responses (RKey.intKey 4) "")] ∧
      hasRequiredKeys (transformResponses responses) = true := by
    intro responses hi
    have ht : transformResponses responses =
        [(RKey.strKey "good_at", dgetD responses (RKey.intKey 1) ""),
         (RKey.strKey "love", dgetD responses (RKey.intKey 2) ""),
         (RKey.strKey "world_needs", dgetD responses (RKey.intKey 3) ""),
         (RKey.strKey "paid_for", dgetD responses (RKey.intKey 4) "")] := by
      simp [transformResponses, hi]
    refine ⟨ht, ?_⟩
    rw [ht]
    rfl
  refine ⟨p1, ?_⟩
  intro cfg now n1 n2 gen responses sid st r hi h hnp hs
  have ht := (p1 responses hi).1
  have hv := (p1 responses hi).2
  rw [generate_valid_some cfg now n1 n2 true gen responses sid st hv hs,
    generateResolve_hit cfg now n2 true gen (transformResponses responses) sid st r h]
  cases gen with
  | ok paths =>
    rw [generateCore_ok now (transformResponses responses) sid
      ⟨sid, { r with last_activity := now }⟩ _ paths hnp]
    rw [ht]
    rfl
  | error e =>
    rw [generateCore_err now (transformResponses responses) sid
      ⟨sid, { r with last_activity := now }⟩ _ e hnp]
    rw [ht]
    rfl

/-- A session that already holds a memoized (non-empty) path list. -/
def stPaths : Store := [("s", ⟨0, [("ikiguide_paths", Val.strList ["P"])], 0, []⟩)]

/-- C1 counterexample: first, returning a memoized result still mutates
the stored record (`get_session` refreshes `last_activity`), so the
"no mutation of the record" conjunct fails; second, when the Generator
fails, nothing is memoized, so two successive calls for the same
session with an unchanged bundle invoke the Generator once each — two
invocations, refuting "at most once". -/
theorem C1_memoization_counterexample :
    (generate_ikiguide_with_retry cfgD 1 "n1" "n2" true (Except.ok ["Q"]) resp4 (some "s")
        stPaths).2.1 ≠ stPaths ∧
    ((generate_ikiguide_with_retry cfgD 1 "n1" "n2" true (Except.error "boom") resp4
        (some "s") stOne).2.2).length = 1 ∧
    ((generate_ikiguide_with_retry cfgD 2 "n3" "n4" true (Except.error "boom") resp4
        (some "s")
        (generate_ikiguide_with_retry cfgD 1 "n1" "n2" true (Except.error "boom") resp4
          (some "s") stOne).2.1).2.2).length = 1 := by
  decide

/-- C1 (amended): when a session's record already holds a non-empty
`user_data.ikiguide_paths` value and the response bundle passes
validation, the protocol returns the stored sequence immediately, with
no Generator call and no mutation of `user_data` — only
`last_activity` is refreshed by the session lookup.  Consequently,
when a first call's Generator succeeds with a non-empty path list, a
second call in succession for the same session id returns the identical
ordered sequence with zero further Generator invocations, so the two
calls together invoke the Generator at most once. -/
theorem C1_generation_memoization :
    (∀ (cfg : Config) (now : Nat) (n1 n2 : String) (clientOk : Bool)
       (gen : Except String (List String)) (responses : Responses) (sid : String)
       (st : Store) (r : SessionRecord) (l : List String),
      dget? st sid = some r →
      dget? r.user_data "ikiguide_paths" = some (Val.strList l) →
      l ≠ [] →
      hasRequiredKeys (transformResponses responses) = true →
      sid ≠ "" →
      generate_ikiguide_with_retry cfg now n1 n2 clientOk gen responses (some sid) st =
        (GenOutcome.result sid (Val.strList l) (transformResponses responses),
         dset st sid { r with last_activity := now }, [])) ∧
    (∀ (cfg : Config) (now now' : Nat) (n1 n2 n1' n2' : String) (clientOk' : Bool)
       (gen' : Except String (List String)) (responses : Responses) (sid : String)
       (st : Store) (r : SessionRecord) (paths : List String),
      dget? st sid = some r →
      truthy? (dget? r.user_data "ikiguide_paths") = false →
      hasRequiredKeys (transformResponses responses) = true →
      sid ≠ "" → paths ≠ [] →
      (generate_ikiguide_with_retry cfg now n1 n2 true (Except.ok paths) responses
          (some sid) st).1 =
        GenOutcome.result sid (Val.strList paths) (transformResponses responses) ∧
      (generate_ikiguide_with_retry cfg now n1 n2 true (Except.ok paths) responses
          (some sid) st).2.2.length = 1 ∧
      (generate_ikiguide_with_retry cfg now' n1' n2' clientOk' gen' responses (some sid)
          (generate_ikiguide_with_retry cfg now n1 n2 true (Except.ok paths) responses
            (some sid) st).2.1).1 =
        GenOutcome.result sid (Val.strList paths) (transformResponses responses) ∧
      (generate_ikiguide_with_retry cfg now' n1' n2' clientOk' gen' responses (some sid)
          (generate_ikiguide_with_retry cfg now n1 n2 true (Except.ok paths) responses
            (some sid) st).2.1).2.2 = []) := by
  have memo : ∀ (cfg : Config) (now : Nat) (n1 n2 : String) (clientOk : Bool)
      (gen : Except String (List String)) (responses : Responses) (sid : String)
      (st : Store) (r : SessionRecord) (l : List String),
      dget? st sid = some r →
      dget? r.user_data "ikiguide_paths" = some (Val.strList l) →
      l ≠ [] →
      hasRequiredKeys (transformResponses responses) = true →
      sid ≠ "" →
      generate_ikiguide_with_retry cfg now n1 n2 clientOk gen responses (some sid) st =
        (GenOutcome.result sid (Val.strList l) (transformResponses responses),
         dset st sid { r with last_activity := now }, []) := by
    intro cfg now n1 n2 clientOk gen responses sid st r l h hp hl hv hs
    have ht : truthy? (dget? (({ r with last_activity := now } : SessionRecord)).user_data
        "ikiguide_paths") = true := by
      show truthy? (dget? r.user_data "ikiguide_paths") = true
      rw [hp]
      simp [truthy?, Val.truthy, hl]
    rw [generate_valid_some cfg now n1 n2 clientOk gen responses sid st hv hs,
      generateResolve_hit cfg now n2 clientOk gen _ sid st r h,
      generateCore_memo now clientOk gen _ sid ⟨sid, { r with last_activity := now }⟩ _ ht,
      show dget? ((⟨sid, { r with last_activity := now }⟩ :
          Session)).session_data.user_data "ikiguide_paths" = some (Val.strList l) from hp]
    rfl
  refine ⟨memo, ?_⟩
  intro cfg now now' n1 n2 n1' n2' clientOk' gen' responses sid st r paths h hnp hv hs hpn
  have e1 : generate_ikiguide_with_retry cfg now n1 n2 true (Except.ok paths) responses
      (some sid) st =
      (GenOutcome.result sid (Val.strList paths) (transformResponses responses),
       (update_session now sid [("ikiguide_paths", Val.strList paths)]
         (dset st sid { r with last_activity := now })).1,
       [⟨respVal (transformResponses responses) "good_at",
         respVal (transformResponses responses) "love",
         respVal (transformResponses responses) "world_needs",
         respVal (transformResponses responses) "paid_for"⟩]) := by
    rw [generate_valid_some cfg now n1 n2 true _ responses sid st hv hs,
      generateResolve_hit cfg now n2 true _ _ sid st r h,
      generateCore_ok now (transformResponses responses) sid
        ⟨sid, { r with last_activity := now }⟩ _ paths hnp]
  have hst1 : dget? ((update_session now sid [("ikiguide_paths", Val.strList paths)]
      (dset st sid { r with last_activity := now })).1) sid =
      some { r with
        user_data := dUpdate r.user_data [("ikiguide_paths", Val.strList paths)],
        last_activity := now } := by
    rw [update_session_hit now [("ikiguide_paths", Val.strList paths)]
      (dget?_dset_self st sid { r with last_activity := now })]
    exact dget?_dset_self _ _ _
  have hr2 : dget? (({ r with
      user_data := dUpdate r.user_data [("ikiguide_paths", Val.strList paths)],
      last_activity := now } : SessionRecord)).user_data "ikiguide_paths" =
      some (Val.strList paths) := by
    show dget? (dset r.user_data "ikiguide_paths" (Val.strList paths))
      "ikiguide_paths" = some (Val.strList paths)
    exact dget?_dset_self _ _ _
  have second := memo cfg now' n1' n2' clientOk' gen' responses sid
    ((update_session now sid [("ikiguide_paths", Val.strList paths)]
      (dset st sid { r with last_activity := now })).1)
    { r with
      user_data := dUpdate r.user_data [("ikiguide_paths", Val.strList paths)],
      last_activity := now }
    paths hst1 hr2 hpn hv hs
  rw [e1]
  refine ⟨rfl, rfl, ?_, ?_⟩
  · rw [second]
  · rw [second]

/-- C1 witness: the memoized-return equation instantiated on a session
already holding `["P"]`, and the twice-in-succession behavior on a
fresh session — the first call invokes the Generator once and stores
`["P1"]`, the second returns the identical sequence with zero further
invocations. -/
theorem C1_generation_witness :
    (generate_ikiguide_with_retry cfgD 3 "n1" "n2" true (Except.error "E") resp4 (some "s")
        stPaths =
      (GenOutcome.result "s" (Val.strList ["P"]) resp4,
       dset stPaths "s" ⟨0, [("ikiguide_paths", Val.strList ["P"])], 3, []⟩, [])) ∧
    ((generate_ikiguide_with_retry cfgD 1 "n1" "n2" true (Except.ok ["P1"]) resp4
        (some "s") stOne).1 = GenOutcome.result "s" (Val.strList ["P1"]) resp4 ∧
     (generate_ikiguide_with_retry cfgD 1 "n1" "n2" true (Except.ok ["P1"]) resp4
        (some "s") stOne).2.2.length = 1 ∧
     (generate_ikiguide_with_retry cfgD 2 "n3" "n4" false (Except.error "E2") resp4
        (some "s")
        (generate_ikiguide_with_retry cfgD 1 "n1" "n2" true (Except.ok ["P1"]) resp4
          (some "s") stOne).2.1).1 =
       GenOutcome.result "s" (Val.strList ["P1"]) resp4 ∧
     (generate_ikiguide_with_retry cfgD 2 "n3" "n4" false (Except.error "E2") resp4
        (some "s")
        (generate_ikiguide_with_retry cfgD 1 "n1" "n2" true (Except.ok ["P1"]) resp4
          (some "s") stOne).2.1).2.2 = []) :=
  ⟨C1_generation_memoization.1 cfgD 3 "n1" "n2" true (Except.error "E") resp4 "s" stPaths
     ⟨0, [("ikiguide_paths", Val.strList ["P"])], 0, []⟩ ["P"]
     (by decide) (by decide) (by decide) (by decide) (by decide),
   C1_generation_memoization.2 cfgD 1 2 "n1" "n2" "n3" "n4" false (Except.error "E2")
     resp4 "s" stOne recZero ["P1"]
     (by decide) (by decide) (by decide) (by decide) (by decide)⟩

/-- C2 counterexample: with a failing Generator on session `"s"`
(valid responses, no stored paths), the protocol returns the sentinel
but the session's `user_data` afterwards holds no `ikiguide_paths`
entry at all — the failure was not stored — and a subsequent request
for the same session attempts the Generator again. -/
theorem C2_failure_counterexample :
    (generate_ikiguide_with_retry cfgD 1 "n1" "n2" true (Except.error "E") resp4 (some "s")
        stOne).1 = GenOutcome.result "s" (Val.strList ["ERROR: E"]) resp4 ∧
    (generate_ikiguide_with_retry cfgD 1 "n1" "n2" true (Except.error "E") resp4 (some "s")
        stOne).2.1 = [("s", ⟨0, [], 1, []⟩)] ∧
    dget? ((⟨0, [], 1, []⟩ : SessionRecord).user_data) "ikiguide_paths" = none ∧
    ((generate_ikiguide_with_retry cfgD 2 "n3" "n4" true (Except.error "E") resp4 (some "s")
        [("s", ⟨0, [], 1, []⟩)]).2.2).length = 1 := by
  decide

/-- C2 (amended): when the Generator call for a session fails, the
protocol returns a single-element sequence carrying the error
description (`"ERROR: " ++ e`) to its caller, but does *not* write it
into the session's `user_data.ikiguide_paths` — the store keeps the
record unchanged except for the `last_activity` refresh — so the
failure is not memoized and a subsequent generation request for the
same session attempts the Generator again (one further invocation per
request). -/
theorem C2_failure_not_memoized (cfg : Config) (now now' : Nat)
    (n1 n2 n1' n2' : String) (gen' : Except String (List String))
    (responses : Responses) (sid : String) (st : Store) (r : SessionRecord) (e : String)
    (h : dget? st sid = some r)
    (hnp : truthy? (dget? r.user_data "ikiguide_paths") = false)
    (hv : hasRequiredKeys (transformResponses responses) = true)
    (hs : sid ≠ "") :
    generate_ikiguide_with_retry cfg now n1 n2 true (Except.error e) responses (some sid)
        st =
      (GenOutcome.result sid (Val.strList ["ERROR: " ++ e]) (transformResponses responses),
       dset st sid { r with last_activity := now },
       [⟨respVal (transformResponses responses) "good_at",
         respVal (transformResponses responses) "love",
         respVal (transformResponses responses) "world_needs",
         respVal (transformResponses responses) "paid_for"⟩]) ∧
    (generate_ikiguide_with_retry cfg now' n1' n2' true gen' responses (some sid)
        (dset st sid { r with last_activity := now })).2.2.length = 1 := by
  constructor
  · rw [generate_valid_some cfg now n1 n2 true _ responses sid st hv hs,
      generateResolve_hit cfg now n2 true _ _ sid st r h,
      generateCore_err now (transformResponses responses) sid
        ⟨sid, { r with last_activity := now }⟩ _ e hnp]
  · rw [generate_valid_some cfg now' n1' n2' true gen' responses sid _ hv hs,
      generateResolve_hit cfg now' n2' true gen' _ sid _ { r with last_activity := now }
        (dget?_dset_self st sid { r with last_activity := now })]
    exact generateCore_calls now' gen' (transformResponses responses) sid
      ⟨sid, { { r with last_activity := now } with last_activity := now' }⟩ _ hnp

/-- C2 witness: the amended behavior on a concrete failing call — the
sentinel is returned, only `last_activity` changes in the store, and
the follow-up request performs one more Generator invocation. -/
theorem C2_failure_witness :
    dget? stOne "s" = some recZero ∧
    (generate_ikiguide_with_retry cfgD 1 "n1" "n2" true (Except.error "boom") resp4
        (some "s") stOne =
      (GenOutcome.result "s" (Val.strList ["ERROR: boom"]) resp4,
       dset stOne "s" ⟨0, [], 1, []⟩,
       [⟨"a", "b", "c", "d"⟩]) ∧
     (generate_ikiguide_with_retry cfgD 2 "n3" "n4" true (Except.error "boom") resp4
        (some "s") (dset stOne "s" ⟨0, [], 1, []⟩)).2.2.length = 1) :=
  ⟨by decide,
   C2_failure_not_memoized cfgD 1 2 "n1" "n2" "n3" "n4" (Except.error "boom") resp4 "s"
     stOne recZero "boom" (by decide) (by decide) (by decide) (by decide)⟩

/-- C10 witness: the mapping `{2: "x"}` — all-integer keys, three
answers absent — is rewritten to `good_at:"", love:"x",
world_needs:"", paid_for:""`, passes validation, and the Generator is
invoked with those answers. -/
theorem C10_numeric_key_witness :
    allIntKeys [(RKey.intKey 2, "x")] = true ∧
    transformResponses [(RKey.intKey 2, "x")] =
      [(RKey.strKey "good_at", ""), (RKey.strKey "love", "x"),
       (RKey.strKey "world_needs", ""), (RKey.strKey "paid_for", "")] ∧
    hasRequiredKeys (transformResponses [(RKey.intKey 2, "x")]) = true ∧
    (generate_ikiguide_with_retry cfgD 1 "n1" "n2" true (Except.ok ["P"])
        [(RKey.intKey 2, "x")] (some "s") stOne).2.2 =
      [⟨"", "x", "", ""⟩] :=
  ⟨by decide, by decide, by decide,
   C10_numeric_key_rewrite.2 cfgD 1 "n1" "n2" (Except.ok ["P"])
     [(RKey.intKey 2, "x")] "s" stOne recZero
     (by decide) (by decide) (by decide) (by decide)⟩

end Ikiguide
